import Mathlib

/-!
Verification of the LLM profile persistence layer and the dual-source
registry of the software-agent SDK.

The embedding follows the source files:
  openhands/sdk/llm/profiles/config.py   (ProfileMetadata, ProfilesConfig)
  openhands/sdk/llm/profiles/manager.py  (ProfileManager)
  openhands/sdk/llm/llm_registry.py      (LLMRegistry)

Fallible Python code (pydantic ValidationError, ValueError, KeyError,
FileNotFoundError) is embedded as `Except String`.  The profile directory
is embedded as an association list from filename to stored document.
-/

set_option maxRecDepth 4000

/-- Modelled from the spec: the external client-configuration collaborator
(the `LLM` class, which is outside this slice).  The core only consumes it
through a narrow contract: an identifying string attribute `model`, a logical
handle attribute `usage_id`, and serialization whose output carries the same
`usage_id` field back (`profile_data.get("usage_id", None)` in
`save_profile`). -/
structure LLM where
  model : String
  usage_id : String
deriving Repr, DecidableEq

/-- `_INVALID_PROFILE_NAMES` from config.py: reserved profile names. -/
def invalidProfileNames : List String := ["", ".", "..", "config"]

/-- One character of the pydantic pattern class `[A-Za-z0-9._-]`. -/
def validNameChar (c : Char) : Bool :=
  (('A' ≤ c && c ≤ 'Z') || ('a' ≤ c && c ≤ 'z') || ('0' ≤ c && c ≤ '9')
    || c = '.' || c = '_' || c = '-')

/-- The pydantic field pattern for `name`: `^[A-Za-z0-9._-]+$`. -/
def namePatternOk (s : String) : Bool :=
  !s.data.isEmpty && s.data.all validNameChar

/-- The pydantic field pattern for `file`: `.*\.json$`, i.e. the value ends
with the literal suffix `.json`. -/
def fileJsonOk (f : String) : Bool :=
  decide (".json".data <:+ f.data)

/-- `ProfileMetadata` from config.py: one entry of the on-disk index. -/
structure ProfileMetadata where
  name : String
  file : String
  description : String
  usage_id : Option String
deriving Repr, DecidableEq

/-- Construction of a `ProfileMetadata` as pydantic performs it: the two
field patterns, then the `validate_name` model validator rejecting the
reserved names.  A failing check raises `ValidationError`. -/
def ProfileMetadata.build (name file description : String)
    (usage_id : Option String) : Except String ProfileMetadata :=
  if !namePatternOk name then
    .error "ValidationError: name does not match pattern"
  else if !fileJsonOk file then
    .error "ValidationError: file does not match pattern"
  else if name ∈ invalidProfileNames then
    .error "ValidationError: Invalid profile name."
  else
    .ok { name := name, file := file, description := description,
          usage_id := usage_id }

/-- `ProfilesConfig` from config.py: the per-directory index document. -/
structure ProfilesConfig where
  default_profile : Option String
  profiles : List ProfileMetadata
deriving Repr, DecidableEq

/-- `ProfilesConfig.empty()`. -/
def ProfilesConfig.empty : ProfilesConfig :=
  { default_profile := none, profiles := [] }

/-- All elements of the list pairwise distinct (the `len(set(..)) == len(..)`
checks of the config validators). -/
def listDistinct : List String → Bool
  | [] => true
  | x :: xs => !(xs.contains x) && listDistinct xs

/-- The profile names of an index, in order. -/
def namesOf (c : ProfilesConfig) : List String :=
  c.profiles.map (fun p => p.name)

/-- The non-null usage ids of an index, in order
(`validate_unicity_non_none_id_sages` keeps every `usage_id` that
`is not None`, the empty string included). -/
def nonNullUsageIds (c : ProfilesConfig) : List String :=
  c.profiles.filterMap (fun p => p.usage_id)

/-- `validate_default_profile_exists`: the default profile, when set, names
an entry of the index. -/
def defaultProfileOk (c : ProfilesConfig) : Bool :=
  match c.default_profile with
  | none => true
  | some d => (namesOf c).contains d

/-- The three `ProfilesConfig` model validators together: distinct names,
distinct non-null usage ids, valid default binding. -/
def invariantsOk (c : ProfilesConfig) : Bool :=
  listDistinct (namesOf c) && listDistinct (nonNullUsageIds c)
    && defaultProfileOk c

/-- Construction of a `ProfilesConfig` as pydantic performs it: the three
model validators run after the per-entry checks. -/
def ProfilesConfig.build (default_profile : Option String)
    (profiles : List ProfileMetadata) : Except String ProfilesConfig :=
  let c : ProfilesConfig :=
    { default_profile := default_profile, profiles := profiles }
  if !listDistinct (namesOf c) then
    .error "ValidationError: Every profile must have a unique name."
  else if !defaultProfileOk c then
    .error "ValidationError: default_profile is not present in profiles"
  else if !listDistinct (nonNullUsageIds c) then
    .error "ValidationError: ID usage are not uniques."
  else
    .ok c

/-- The profile directory: an association list from filename to stored
profile document.  `write` overwrites an existing file in place and creates
a missing one. -/
def writeDoc (docs : List (String × LLM)) (file : String) (doc : LLM) :
    List (String × LLM) :=
  match docs with
  | [] => [(file, doc)]
  | (f, d) :: rest =>
      if f = file then (file, doc) :: rest
      else (f, d) :: writeDoc rest file doc

/-- Read a document file from the directory; `none` means the file is
missing (`FileNotFoundError` on open). -/
def readDoc (docs : List (String × LLM)) (file : String) : Option LLM :=
  match docs with
  | [] => none
  | (f, d) :: rest => if f = file then some d else readDoc rest file

/-- The state of a `ProfileManager` in the Ready state, together with the
part of the filesystem it owns: the in-memory index `config`, the persisted
index `diskConfig` (contents of `config.json`), the per-profile document
files `docs`, and the `functools.cache` slot of `get_default_profile`
(`some r` when a result `r` is cached). -/
structure ManagerState where
  config : ProfilesConfig
  diskConfig : ProfilesConfig
  docs : List (String × LLM)
  defaultCache : Option (Option LLM)
deriving Repr, DecidableEq

/-- A `ProfileManager` freshly constructed over an empty directory: an empty
index is created and persisted, nothing is cached. -/
def emptyManager : ManagerState :=
  { config := ProfilesConfig.empty, diskConfig := ProfilesConfig.empty,
    docs := [], defaultCache := none }

/-- `ProfileManager.get_profile_names`. -/
def get_profile_names (st : ManagerState) : List String :=
  namesOf st.config

/-- `ProfileManager.get_id_usages`: the comprehension filters with the
truthiness test `if profile.usage_id`, which drops `None` and the empty
string alike. -/
def get_id_usages (c : ProfilesConfig) : List String :=
  c.profiles.filterMap (fun p =>
    match p.usage_id with
    | some u => if u = "" then none else some u
    | none => none)

/-- `ProfileManager.load_profile`: first index entry with the given name;
its `file` field is read from the directory and deserialized. -/
def load_profile (st : ManagerState) (name : String) : Except String LLM :=
  match st.config.profiles.find? (fun p => p.name = name) with
  | some p =>
      match readDoc st.docs p.file with
      | some llm => .ok llm
      | none => .error ("FileNotFoundError: " ++ p.file)
  | none => .error ("Unknown profile " ++ name)

/-- `ProfileManager.get_default_profile`, with the `functools.cache`
explicit: a cache hit returns the cached result without touching the index
or the disk; a miss computes the result and fills the cache (an exception
leaves the cache empty). -/
def get_default_profile (st : ManagerState) :
    Except String (Option LLM × ManagerState) :=
  match st.defaultCache with
  | some r => .ok (r, st)
  | none =>
      match st.config.default_profile with
      | none => .ok (none, { st with defaultCache := some none })
      | some n =>
          match load_profile st n with
          | .ok llm => .ok (some llm, { st with defaultCache := some (some llm) })
          | .error e => .error e

/-- The index-update loop of `save_profile`: replace the first entry whose
name matches the name of the new metadata in place, else append at the end. -/
def replaceOrAppend (pm : ProfileMetadata) :
    List ProfileMetadata → List ProfileMetadata
  | [] => [pm]
  | p :: ps => if p.name = pm.name then pm :: ps else p :: replaceOrAppend pm ps

/-- `ProfileManager.save_profile`: serialize the instance, build the
metadata entry (this is where `ValidationError` can be raised, before any
write), write the document to `name.json`, update the in-memory index in
place, and rewrite `config.json`.  The `usage_id` of the serialized document
becomes the `usage_id` of the metadata entry.  The index is mutated directly, so the
`ProfilesConfig` validators are not re-run. -/
def save_profile (name description : String) (llm : LLM)
    (st : ManagerState) : Except String ManagerState :=
  let profile_filename := name ++ ".json"
  match ProfileMetadata.build name profile_filename description
      (some llm.usage_id) with
  | .error e => .error e
  | .ok pm =>
      let docs' := writeDoc st.docs profile_filename llm
      let config' : ProfilesConfig :=
        { default_profile := st.config.default_profile,
          profiles := replaceOrAppend pm st.config.profiles }
      .ok { config := config', diskConfig := config', docs := docs',
            defaultCache := st.defaultCache }

/-- `pathlib.Path.with_suffix(".json")` on a bare filename: the existing
suffix — the text from the last dot, when that dot is neither the first nor
the last character — is dropped, then `.json` is appended. -/
def withSuffixJson (name : String) : String :=
  let cs := name.data
  let dots := (cs.enum.filter (fun e => e.2 = '.')).map (fun e => e.1)
  match dots.getLast? with
  | some i =>
      if 0 < i && i < cs.length - 1 then
        String.mk (cs.take i) ++ ".json"
      else name ++ ".json"
  | none => name ++ ".json"

/-- `ProfileManager.delete_profile`: reject an absent name and the current
default; unlink `(base_dir / name).with_suffix(".json")` with
`missing_ok=True`; drop the entry from the index and rewrite
`config.json`. -/
def delete_profile (name : String) (st : ManagerState) :
    Except String ManagerState :=
  if ¬ (name ∈ get_profile_names st) then
    .error ("Given profile " ++ name ++ " not present in profiles")
  else if st.config.default_profile = some name then
    .error "Cannot delete the default profile. Set another profile as default first."
  else
    let victim := withSuffixJson name
    let docs' := st.docs.filter (fun e => e.1 ≠ victim)
    let config' : ProfilesConfig :=
      { default_profile := st.config.default_profile,
        profiles := st.config.profiles.filter (fun p => p.name ≠ name) }
    .ok { config := config', diskConfig := config', docs := docs',
          defaultCache := st.defaultCache }

/-- `ProfileManager.set_default_profile`: reject an absent name; update the
default binding, rewrite `config.json`, and clear the
`get_default_profile` cache before returning. -/
def set_default_profile (name : String) (st : ManagerState) :
    Except String ManagerState :=
  if ¬ (name ∈ get_profile_names st) then
    .error ("Given profile " ++ name ++ " not present in profiles")
  else
    let config' : ProfilesConfig :=
      { default_profile := some name, profiles := st.config.profiles }
    .ok { config := config', diskConfig := config', docs := st.docs,
          defaultCache := none }

/-- The state of an `LLMRegistry`: the insertion-ordered in-memory map
`_usage_to_llm`, the optionally attached `ProfileManager`, and whether a
subscriber callback is installed (the single replaceable slot). -/
structure RegistryState where
  usage_to_llm : List (String × LLM)
  profile_manager : Option ManagerState
  hasSubscriber : Bool
deriving Repr, DecidableEq

/-- Python `dict.__setitem__` on the insertion-ordered map: an existing key
keeps its position and gets the new value; a new key is appended last. -/
def insertAssoc (m : List (String × LLM)) (k : String) (v : LLM) :
    List (String × LLM) :=
  match m with
  | [] => [(k, v)]
  | (k', v') :: rest =>
      if k' = k then (k, v) :: rest else (k', v') :: insertAssoc rest k v

/-- Python `dict.__getitem__` / `in` on the insertion-ordered map. -/
def lookupAssoc (m : List (String × LLM)) (k : String) : Option LLM :=
  match m with
  | [] => none
  | (k', v') :: rest => if k' = k then some v' else lookupAssoc rest k

/-- Insertion into a sorted list of strings (used to embed Python
`sorted`). -/
def insertSorted (x : String) : List String → List String
  | [] => [x]
  | y :: ys => if x ≤ y then x :: y :: ys else y :: insertSorted x ys

/-- Python `sorted` on a list of strings. -/
def sortStrings (l : List String) : List String :=
  l.foldr insertSorted []

/-- Python `set` on a list of strings: drop duplicates (membership is all
the registry reads back out of it). -/
def dedupStrings : List String → List String
  | [] => []
  | x :: xs => if x ∈ dedupStrings xs then dedupStrings xs else x :: dedupStrings xs

/-- The usage ids contributed by the attached store, when any:
`self.profile_manager.get_id_usages()`. -/
def storeUsageIds (st : RegistryState) : List String :=
  match st.profile_manager with
  | some pm => get_id_usages pm.config
  | none => []

/-- `LLMRegistry.list_usage_ids`: the sorted union of the in-memory keys and
the usage ids of the store. -/
def list_usage_ids (st : RegistryState) : List String :=
  sortStrings (dedupStrings (st.usage_to_llm.map Prod.fst ++ storeUsageIds st))

/-- `LLMRegistry.notify`: deliver the event to the subscriber when one is
installed; an exception the callback raises is caught and logged.  The
result is the list of delivered events together with the caught exception
(which the caller discards). -/
def notify (hasSubscriber subscriberRaises : Bool) (ev : LLM) :
    List LLM × Option String :=
  if hasSubscriber then
    ([ev], if subscriberRaises then some "subscriber exception (caught and logged)" else none)
  else ([], none)

/-- The `ValueError` message of `LLMRegistry.add` for a colliding usage id. -/
def duplicateMsg (uid : String) : String :=
  "Usage ID " ++ uid ++ " already exists in registry. Use a different usage_id on the LLM or call get() to retrieve the existing LLM."

/-- The `KeyError` message of `LLMRegistry.get` for an unknown usage id. -/
def notFoundMsg (uid : String) : String :=
  "Usage ID " ++ uid ++ " not found in registry. Use add() to register an LLM first."

/-- `LLMRegistry.add`, parameterized by whether the subscriber callback
raises: reject a usage id already in `list_usage_ids`; otherwise insert into
the in-memory map, then notify.  The returned list is the events delivered
to the subscriber; the exception component of `notify` is dropped, never
re-raised. -/
def Registry.add (subscriberRaises : Bool) (llm : LLM) (st : RegistryState) :
    Except String (RegistryState × List LLM) :=
  if llm.usage_id ∈ list_usage_ids st then
    .error (duplicateMsg llm.usage_id)
  else
    let st' : RegistryState :=
      { st with usage_to_llm := insertAssoc st.usage_to_llm llm.usage_id llm }
    .ok (st', (notify st'.hasSubscriber subscriberRaises llm).1)

/-- `LLMRegistry.get`: (a) the in-memory map; (b) else, when a store is
attached and the usage id is among `get_id_usages`, the first index entry
with that `usage_id` is loaded via the store and cached into the map;
(c) else `KeyError`. -/
def Registry.get (uid : String) (st : RegistryState) :
    Except String (LLM × RegistryState) :=
  match lookupAssoc st.usage_to_llm uid with
  | some llm => .ok (llm, st)
  | none =>
      match st.profile_manager with
      | some pm =>
          if uid ∈ get_id_usages pm.config then
            match pm.config.profiles.find? (fun p => p.usage_id = some uid) with
            | some p =>
                match load_profile pm p.name with
                | .ok llm =>
                    .ok (llm, { st with
                      usage_to_llm := insertAssoc st.usage_to_llm uid llm })
                | .error e => .error e
            | none => .error "StopIteration"
          else
            .error (notFoundMsg uid)
      | none =>
          .error (notFoundMsg uid)

/-- The loop of `LLMRegistry.export_profiles` over the in-memory entries,
in insertion order: each instance is saved under its `model` as name and
its usage id as description.  The first `ValidationError` from
`save_profile` propagates; the target directory keeps everything written
before it (the second component is the raised exception, `none` on full
completion). -/
def exportGo : List (String × LLM) → ManagerState → ManagerState × Option String
  | [], m => (m, none)
  | (uid, llm) :: rest, m =>
      match save_profile llm.model uid llm m with
      | .ok m' => exportGo rest m'
      | .error e => (m, some e)

/-- `LLMRegistry.export_profiles` against a target store state `tgt` (the
`ProfileManager` rooted at the chosen directory). -/
def export_profiles (st : RegistryState) (tgt : ManagerState) :
    ManagerState × Option String :=
  exportGo st.usage_to_llm tgt


/-! ## Supporting lemmas -/

theorem fileJsonOk_append (s : String) : fileJsonOk (s ++ ".json") = true := by
  simp only [fileJsonOk, String.data_append, decide_eq_true_eq]
  exact List.suffix_append s.data ".json".data

theorem build_ok_of_valid (n d : String) (u : Option String)
    (h1 : namePatternOk n = true) (h2 : ¬ n ∈ invalidProfileNames) :
    ProfileMetadata.build n (n ++ ".json") d u
      = .ok { name := n, file := n ++ ".json", description := d, usage_id := u } := by
  simp [ProfileMetadata.build, h1, h2, fileJsonOk_append]

theorem save_profile_eq (n d : String) (llm : LLM) (st : ManagerState)
    (h1 : namePatternOk n = true) (h2 : ¬ n ∈ invalidProfileNames) :
    save_profile n d llm st = .ok
      { config := { default_profile := st.config.default_profile,
                    profiles := replaceOrAppend
                      { name := n, file := n ++ ".json", description := d,
                        usage_id := some llm.usage_id } st.config.profiles },
        diskConfig := { default_profile := st.config.default_profile,
                        profiles := replaceOrAppend
                          { name := n, file := n ++ ".json", description := d,
                            usage_id := some llm.usage_id } st.config.profiles },
        docs := writeDoc st.docs (n ++ ".json") llm,
        defaultCache := st.defaultCache } := by
  simp [save_profile, build_ok_of_valid n d (some llm.usage_id) h1 h2]

theorem save_profile_error_of_invalid (n d : String) (llm : LLM)
    (st : ManagerState)
    (h : namePatternOk n = false ∨ n ∈ invalidProfileNames) :
    ∃ e, save_profile n d llm st = .error e := by
  rcases h with h | h
  · exact ⟨"ValidationError: name does not match pattern",
      by simp [save_profile, ProfileMetadata.build, h]⟩
  · by_cases hp : namePatternOk n
    · exact ⟨"ValidationError: Invalid profile name.",
        by simp [save_profile, ProfileMetadata.build, hp, fileJsonOk_append, h]⟩
    · exact ⟨"ValidationError: name does not match pattern",
        by simp [save_profile, ProfileMetadata.build, hp]⟩

theorem save_profile_ok_docs (n d : String) (llm : LLM) (st st' : ManagerState)
    (h : save_profile n d llm st = .ok st') :
    st'.docs = writeDoc st.docs (n ++ ".json") llm := by
  by_cases h1 : namePatternOk n
  · by_cases h2 : n ∈ invalidProfileNames
    · obtain ⟨e, he⟩ := save_profile_error_of_invalid n d llm st (Or.inr h2)
      rw [he] at h; cases h
    · rw [save_profile_eq n d llm st h1 h2] at h
      cases h; rfl
  · obtain ⟨e, he⟩ := save_profile_error_of_invalid n d llm st
      (Or.inl (by simpa using h1))
    rw [he] at h; cases h

theorem replaceOrAppend_of_not_mem (pm : ProfileMetadata)
    (l : List ProfileMetadata) (h : ¬ pm.name ∈ l.map (fun p => p.name)) :
    replaceOrAppend pm l = l ++ [pm] := by
  induction l with
  | nil => rfl
  | cons p ps ih =>
      simp only [List.map_cons, List.mem_cons] at h
      push_neg at h
      have hne : ¬ p.name = pm.name := fun hc => h.1 hc.symm
      simp only [replaceOrAppend, if_neg hne, ih h.2, List.cons_append]

theorem replaceOrAppend_split (pm p : ProfileMetadata)
    (l1 l2 : List ProfileMetadata) (hp : p.name = pm.name)
    (hfirst : ∀ q ∈ l1, q.name ≠ pm.name) :
    replaceOrAppend pm (l1 ++ p :: l2) = l1 ++ pm :: l2 := by
  induction l1 with
  | nil => simp [replaceOrAppend, hp]
  | cons q qs ih =>
      simp only [List.cons_append, replaceOrAppend, List.append_eq]
      rw [if_neg (hfirst q (List.mem_cons_self q qs))]
      rw [ih (fun r hr => hfirst r (List.mem_cons_of_mem q hr))]

theorem mem_keys_writeDoc_self (docs : List (String × LLM)) (file : String)
    (doc : LLM) : file ∈ (writeDoc docs file doc).map Prod.fst := by
  induction docs with
  | nil => simp [writeDoc]
  | cons e rest ih =>
      obtain ⟨f, d⟩ := e
      by_cases hf : f = file
      · simp [writeDoc, hf]
      · simp only [writeDoc, if_neg hf, List.map_cons, List.mem_cons]
        exact Or.inr ih

theorem mem_keys_writeDoc_mono (docs : List (String × LLM))
    (file k : String) (doc : LLM) (h : k ∈ docs.map Prod.fst) :
    k ∈ (writeDoc docs file doc).map Prod.fst := by
  induction docs with
  | nil => cases h
  | cons e rest ih =>
      obtain ⟨f, d⟩ := e
      simp only [List.map_cons, List.mem_cons] at h
      by_cases hf : f = file
      · simp only [writeDoc, if_pos hf, List.map_cons, List.mem_cons]
        rcases h with h | h
        · exact Or.inl (hf ▸ h)
        · exact Or.inr h
      · simp only [writeDoc, if_neg hf, List.map_cons, List.mem_cons]
        rcases h with h | h
        · exact Or.inl h
        · exact Or.inr (ih h)

theorem lookupAssoc_insertAssoc_self (m : List (String × LLM)) (k : String)
    (v : LLM) : lookupAssoc (insertAssoc m k v) k = some v := by
  induction m with
  | nil => simp [insertAssoc, lookupAssoc]
  | cons e rest ih =>
      obtain ⟨k', v'⟩ := e
      by_cases hk : k' = k
      · simp [insertAssoc, lookupAssoc, hk]
      · simp [insertAssoc, lookupAssoc, hk, ih]

theorem lookupAssoc_none_iff (m : List (String × LLM)) (k : String) :
    lookupAssoc m k = none ↔ ¬ k ∈ m.map Prod.fst := by
  induction m with
  | nil => simp [lookupAssoc]
  | cons e rest ih =>
      obtain ⟨k', v'⟩ := e
      by_cases hk : k' = k
      · subst hk
        simp [lookupAssoc]
      · simp only [lookupAssoc, if_neg hk, ih, List.map_cons, List.mem_cons]
        constructor
        · intro hn
          rintro (rfl | hm)
          · exact hk rfl
          · exact hn hm
        · intro hn hm
          exact hn (Or.inr hm)

theorem mem_insertSorted (x y : String) (l : List String) :
    x ∈ insertSorted y l ↔ x = y ∨ x ∈ l := by
  induction l with
  | nil => simp [insertSorted]
  | cons z zs ih =>
      by_cases h : y ≤ z
      · simp [insertSorted, h]
      · simp only [insertSorted, if_neg h, List.mem_cons, ih]
        tauto

theorem mem_sortStrings (x : String) (l : List String) :
    x ∈ sortStrings l ↔ x ∈ l := by
  induction l with
  | nil => simp [sortStrings]
  | cons y ys ih =>
      simp only [sortStrings, List.foldr_cons] at ih ⊢
      rw [mem_insertSorted, ih, List.mem_cons]

theorem mem_dedupStrings (x : String) (l : List String) :
    x ∈ dedupStrings l ↔ x ∈ l := by
  induction l with
  | nil => simp [dedupStrings]
  | cons y ys ih =>
      by_cases h : y ∈ dedupStrings ys
      · simp only [dedupStrings, if_pos h, ih, List.mem_cons]
        constructor
        · exact Or.inr
        · rintro (rfl | hx)
          · exact ih.mp h
          · exact hx
      · simp only [dedupStrings, if_neg h, List.mem_cons, ih]

theorem mem_list_usage_ids (st : RegistryState) (x : String) :
    x ∈ list_usage_ids st ↔
      x ∈ st.usage_to_llm.map Prod.fst ∨ x ∈ storeUsageIds st := by
  rw [list_usage_ids, mem_sortStrings, mem_dedupStrings, List.mem_append]

theorem exportGo_keys_mono (l : List (String × LLM)) (m : ManagerState)
    (k : String) (h : k ∈ m.docs.map Prod.fst) :
    k ∈ (exportGo l m).1.docs.map Prod.fst := by
  induction l generalizing m with
  | nil => exact h
  | cons e rest ih =>
      obtain ⟨uid, llm⟩ := e
      simp only [exportGo]
      cases hs : save_profile llm.model uid llm m with
      | error err => exact h
      | ok m' =>
          have hd := save_profile_ok_docs llm.model uid llm m m' hs
          exact ih m' (by rw [hd]; exact mem_keys_writeDoc_mono m.docs _ k llm h)

theorem exportGo_all_valid (l : List (String × LLM)) (m : ManagerState)
    (h : ∀ e ∈ l, namePatternOk e.2.model = true
      ∧ ¬ e.2.model ∈ invalidProfileNames) :
    (exportGo l m).2 = none ∧
      ∀ e ∈ l, (e.2.model ++ ".json") ∈ (exportGo l m).1.docs.map Prod.fst := by
  induction l generalizing m with
  | nil => exact ⟨rfl, by simp⟩
  | cons e rest ih =>
      obtain ⟨uid, llm⟩ := e
      obtain ⟨h1, h2⟩ := h (uid, llm) (List.mem_cons_self _ _)
      have hrest := fun e he => h e (List.mem_cons_of_mem (uid, llm) he)
      have hs := save_profile_eq llm.model uid llm m h1 h2
      simp only [exportGo, hs]
      refine ⟨(ih _ hrest).1, ?_⟩
      intro f hf
      rcases List.mem_cons.mp hf with hf | hf
      · subst hf
        exact exportGo_keys_mono rest _ _
          (mem_keys_writeDoc_self m.docs (llm.model ++ ".json") llm)
      · exact (ih _ hrest).2 f hf

theorem exportGo_append (l1 l2 : List (String × LLM)) (m : ManagerState)
    (h : (exportGo l1 m).2 = none) :
    exportGo (l1 ++ l2) m = exportGo l2 (exportGo l1 m).1 := by
  induction l1 generalizing m with
  | nil => simp [exportGo]
  | cons e r ih =>
      obtain ⟨uid, llm⟩ := e
      simp only [List.cons_append, exportGo] at h ⊢
      cases hs : save_profile llm.model uid llm m with
      | error err => rw [hs] at h; simp at h
      | ok m' => rw [hs] at h; exact ih m' h

/-! ## Concrete fixtures used by counterexamples and witnesses -/

/-- Metadata of a concrete profile named a. -/
def pmA : ProfileMetadata :=
  { name := "a", file := "a.json", description := "da", usage_id := some "ua" }

/-- Metadata of a concrete profile named b. -/
def pmB : ProfileMetadata :=
  { name := "b", file := "b.json", description := "db", usage_id := some "ub" }

/-- A Ready store holding the two profiles a and b, no default set.  It is
the state reached from an empty directory by saving a then b. -/
def twoProfileStore : ManagerState :=
  { config := { default_profile := none, profiles := [pmA, pmB] },
    diskConfig := { default_profile := none, profiles := [pmA, pmB] },
    docs := [("a.json", { model := "ma", usage_id := "ua" }),
             ("b.json", { model := "mb", usage_id := "ub" })],
    defaultCache := none }

/-- Sanity: `twoProfileStore` is reachable through the store operations. -/
theorem twoProfileStore_reachable :
    (save_profile "a" "da" { model := "ma", usage_id := "ua" } emptyManager).bind
      (save_profile "b" "db" { model := "mb", usage_id := "ub" })
      = .ok twoProfileStore := by rfl

/-! ## The claims -/

/-- Claim C1 (code bug exhibit).  The claim says every successful store
operation preserves the three `ProfilesConfig` invariants, in particular
that two `save_profile` calls with distinct names but the same non-null
usage id leave distinct non-null usage ids.  The code violates this:
`save_profile` mutates `config.profiles` directly without re-running the
`ProfilesConfig` validators, so saving a then b with the same usage id u
succeeds and leaves the index with the duplicate list [u, u], on which
`invariantsOk` (the conjunction of the three validators) is false. -/
theorem C1_save_breaks_usage_id_unicity :
    Except.map (fun st => (nonNullUsageIds st.config, invariantsOk st.config))
      ((save_profile "a" "d" { model := "m", usage_id := "u" } emptyManager).bind
        (save_profile "b" "d" { model := "m2", usage_id := "u" }))
      = .ok (["u", "u"], false) := by rfl

/-- Claim C2 (counterexample).  The claim says overwriting an existing entry
moves it to the last position of the profiles list.  Saving a, then b, then
overwriting a with a new description leaves the entry for a at the first
position; the last name is still b. -/
theorem C2_counterexample :
    Except.map (fun st =>
        (st.config.profiles.map (fun p => (p.name, p.description)),
         (namesOf st.config).getLast?))
      ((save_profile "a" "old" { model := "m1", usage_id := "u1" } emptyManager).bind
        (fun s => (save_profile "b" "db" { model := "m2", usage_id := "u2" } s).bind
          (save_profile "a" "new" { model := "m1", usage_id := "u1" })))
      = .ok ([("a", "new"), ("b", "db")], some "b") := by rfl

/-- Claim C2 (amended).  Overwriting an existing entry replaces it in place:
the index length is unchanged, the entry for the name keeps its position and
both surrounding segments of the list, and it carries the new description
(and the metadata freshly built from the saved instance). -/
theorem C2_save_overwrites_in_place (st : ManagerState) (n d : String)
    (llm : LLM) (l1 l2 : List ProfileMetadata) (p : ProfileMetadata)
    (h1 : namePatternOk n = true) (h2 : ¬ n ∈ invalidProfileNames)
    (hsplit : st.config.profiles = l1 ++ p :: l2) (hname : p.name = n)
    (hfirst : ∀ q ∈ l1, q.name ≠ n) :
    ∃ st', save_profile n d llm st = .ok st' ∧
      st'.config.profiles.length = st.config.profiles.length ∧
      st'.config.profiles = l1 ++
        { name := n, file := n ++ ".json", description := d,
          usage_id := some llm.usage_id } :: l2 := by
  refine ⟨_, save_profile_eq n d llm st h1 h2, ?_, ?_⟩
  · show (replaceOrAppend _ st.config.profiles).length = _
    rw [hsplit, replaceOrAppend_split _ p l1 l2 hname hfirst]
    simp
  · show replaceOrAppend _ st.config.profiles = _
    rw [hsplit, replaceOrAppend_split _ p l1 l2 hname hfirst]

/-- Witness for C2: overwriting profile a of the two-profile store keeps it
at the first position with the new description. -/
theorem C2_witness :
    ∃ st', save_profile "a" "new" { model := "ma", usage_id := "ua" }
        twoProfileStore = .ok st' ∧
      st'.config.profiles.length = twoProfileStore.config.profiles.length ∧
      st'.config.profiles = [] ++
        { name := "a", file := "a" ++ ".json", description := "new",
          usage_id := some "ua" } :: [pmB] :=
  C2_save_overwrites_in_place twoProfileStore "a" "new"
    { model := "ma", usage_id := "ua" } [] [pmB] pmA
    (by decide) (by decide) rfl rfl (by simp)

/-- Claim C3.  `save_profile` with a valid name succeeds, rewrites the index
to disk, stores an entry whose name field equals the name argument, appends
the new entry at the last position when the name is absent, and replaces the
existing entry in place (all other positions unchanged) when the name is
present. -/
theorem C3_save_index_update (st : ManagerState) (n d : String) (llm : LLM)
    (h1 : namePatternOk n = true) (h2 : ¬ n ∈ invalidProfileNames) :
    ∃ st', save_profile n d llm st = .ok st' ∧
      st'.diskConfig = st'.config ∧
      (¬ n ∈ namesOf st.config →
        st'.config.profiles = st.config.profiles ++
          [{ name := n, file := n ++ ".json", description := d,
             usage_id := some llm.usage_id }]) ∧
      (∀ l1 p l2, st.config.profiles = l1 ++ p :: l2 → p.name = n →
        (∀ q ∈ l1, q.name ≠ n) →
        st'.config.profiles = l1 ++
          { name := n, file := n ++ ".json", description := d,
            usage_id := some llm.usage_id } :: l2) := by
  refine ⟨_, save_profile_eq n d llm st h1 h2, rfl, ?_, ?_⟩
  · intro hmem
    exact replaceOrAppend_of_not_mem _ st.config.profiles hmem
  · intro l1 p l2 hs hp hf
    show replaceOrAppend _ st.config.profiles = _
    rw [hs, replaceOrAppend_split _ p l1 l2 hp hf]

/-- Witness for C3: saving the fresh name c into the two-profile store
appends its entry at the last position and persists the index. -/
theorem C3_witness :
    ∃ st', save_profile "c" "dc" { model := "mc", usage_id := "uc" }
        twoProfileStore = .ok st' ∧
      st'.diskConfig = st'.config ∧
      st'.config.profiles = twoProfileStore.config.profiles ++
        [{ name := "c", file := "c" ++ ".json", description := "dc",
           usage_id := some "uc" }] := by
  obtain ⟨st', hok, hdisk, happ, _⟩ :=
    C3_save_index_update twoProfileStore "c" "dc"
      { model := "mc", usage_id := "uc" } (by decide) (by decide)
  exact ⟨st', hok, hdisk, happ (by decide)⟩

/-- Claim C4 (code bug exhibit).  The claim says `delete_profile n` removes
exactly the document file recorded in the file field of the index entry of
n, leaving every other document untouched, also for names containing dots.
The code instead unlinks `(base_dir / name).with_suffix(".json")`: starting
from an empty directory, saving profile a (document a.json), saving profile
a.b (document a.b.json) and then deleting a.b removes the document of the
other profile a and leaves a.b.json on disk. -/
theorem C4_delete_unlinks_wrong_file :
    withSuffixJson "a.b" = "a.json" ∧
    Except.map (fun st => (st.docs.map Prod.fst, namesOf st.config))
      ((save_profile "a" "d" { model := "m1", usage_id := "u1" } emptyManager).bind
        (fun s => (save_profile "a.b" "d" { model := "m2", usage_id := "u2" } s).bind
          (delete_profile "a.b")))
      = .ok (["a.b.json"], ["a"]) := by
  exact ⟨rfl, rfl⟩

/-- A store whose single profile p records the empty string as its usage id
(reachable: saving an instance whose usage id is the empty string). -/
def pmEmptyUid : ProfileMetadata :=
  { name := "p", file := "p.json", description := "d", usage_id := some "" }

/-- The index holding only `pmEmptyUid`. -/
def cfgEmptyUid : ProfilesConfig :=
  { default_profile := none, profiles := [pmEmptyUid] }

/-- The store state over that index. -/
def emptyUidStore : ManagerState :=
  { config := cfgEmptyUid, diskConfig := cfgEmptyUid,
    docs := [("p.json", { model := "m", usage_id := "" })],
    defaultCache := none }

/-- Sanity: `emptyUidStore` is reachable through the store operations. -/
theorem emptyUidStore_reachable :
    save_profile "p" "d" { model := "m", usage_id := "" } emptyManager
      = .ok emptyUidStore := by rfl

/-- A registry attached to `emptyUidStore`, with an empty in-memory map. -/
def emptyUidRegistry : RegistryState :=
  { usage_to_llm := [], profile_manager := some emptyUidStore,
    hasSubscriber := false }

/-- Claim C5 (counterexample).  The index of the attached store records the
usage id given by the empty string (its entry carries `some ""`), yet
`add` of an instance with that usage id succeeds and registers it: the
truthiness filter of `get_id_usages` hides the empty string from the
duplicate check, so `add` does not fail exactly on the union described by
the claim. -/
theorem C5_counterexample :
    emptyUidRegistry.profile_manager = some emptyUidStore ∧
    nonNullUsageIds emptyUidStore.config = [""] ∧
    Except.map (fun r => r.1.usage_to_llm.map Prod.fst)
      (Registry.add false { model := "m2", usage_id := "" } emptyUidRegistry)
      = .ok [""] := by
  exact ⟨rfl, rfl, rfl⟩

/-- Claim C5 (amended).  `add` fails exactly when the usage id of the
instance is already present in the union of the keys of the in-memory map
and the non-empty usage identifiers recorded in the index of the attached
store (`get_id_usages`); otherwise it inserts the instance into the
in-memory map. -/
theorem C5_add_duplicate_check (st : RegistryState) (llm : LLM)
    (subRaises : Bool) :
    ((llm.usage_id ∈ st.usage_to_llm.map Prod.fst
        ∨ llm.usage_id ∈ storeUsageIds st) →
      Registry.add subRaises llm st = .error (duplicateMsg llm.usage_id)) ∧
    (¬ llm.usage_id ∈ st.usage_to_llm.map Prod.fst →
     ¬ llm.usage_id ∈ storeUsageIds st →
      ∃ st' evs, Registry.add subRaises llm st = .ok (st', evs) ∧
        lookupAssoc st'.usage_to_llm llm.usage_id = some llm) := by
  constructor
  · intro h
    have hm : llm.usage_id ∈ list_usage_ids st :=
      (mem_list_usage_ids st llm.usage_id).mpr h
    unfold Registry.add
    rw [if_pos hm]
  · intro h1 h2
    have hm : ¬ llm.usage_id ∈ list_usage_ids st := by
      intro hc
      rcases (mem_list_usage_ids st llm.usage_id).mp hc with h | h
      · exact h1 h
      · exact h2 h
    refine ⟨{ st with usage_to_llm := insertAssoc st.usage_to_llm llm.usage_id llm },
      (notify st.hasSubscriber subRaises llm).1, ?_,
      lookupAssoc_insertAssoc_self st.usage_to_llm llm.usage_id llm⟩
    unfold Registry.add
    rw [if_neg hm]

/-- Witness for C5: adding a usage id that is already an in-memory key
fails with the duplicate message. -/
theorem C5_witness :
    Registry.add false { model := "m2", usage_id := "u" }
      { usage_to_llm := [("u", { model := "m1", usage_id := "u" })],
        profile_manager := none, hasSubscriber := false }
      = .error (duplicateMsg "u") :=
  (C5_add_duplicate_check
    { usage_to_llm := [("u", { model := "m1", usage_id := "u" })],
      profile_manager := none, hasSubscriber := false }
    { model := "m2", usage_id := "u" } false).1 (Or.inl (by decide))

/-- Claim C6 (counterexample).  The index of the attached store records the
empty string as the usage id of profile p, the in-memory map is empty, yet
`get` of the empty string fails instead of loading the profile: the
membership test runs against the truthiness-filtered `get_id_usages`. -/
theorem C6_counterexample :
    emptyUidRegistry.profile_manager = some emptyUidStore ∧
    nonNullUsageIds emptyUidStore.config = [""] ∧
    Registry.get "" emptyUidRegistry = .error (notFoundMsg "") := by
  exact ⟨rfl, rfl, rfl⟩

/-- Claim C6 (amended).  Resolution order of `get`: (a) a key of the
in-memory map is returned from the map with the state unchanged; (b) when
the map misses, a store is attached, the usage id is non-empty and some
index entry carries it, the profile of the first such entry is loaded via
the store, inserted into the in-memory map, and returned, and a second
`get` of the same id resolves from the map, returning the same state; (c)
when the map misses and the store contributes no matching non-empty usage
id, `get` fails with a message containing the offending usage id. -/
theorem C6_get_resolution (st : RegistryState) (uid : String) :
    (∀ llm, lookupAssoc st.usage_to_llm uid = some llm →
      Registry.get uid st = .ok (llm, st)) ∧
    (∀ pm p llm, lookupAssoc st.usage_to_llm uid = none →
      st.profile_manager = some pm → ¬ uid = "" →
      pm.config.profiles.find? (fun q => q.usage_id = some uid) = some p →
      load_profile pm p.name = .ok llm →
      Registry.get uid st = .ok (llm,
        { st with usage_to_llm := insertAssoc st.usage_to_llm uid llm }) ∧
      lookupAssoc (insertAssoc st.usage_to_llm uid llm) uid = some llm ∧
      Registry.get uid
          { st with usage_to_llm := insertAssoc st.usage_to_llm uid llm }
        = .ok (llm,
          { st with usage_to_llm := insertAssoc st.usage_to_llm uid llm })) ∧
    (lookupAssoc st.usage_to_llm uid = none →
      (∀ pm, st.profile_manager = some pm → ¬ uid ∈ get_id_usages pm.config) →
      ∃ a b, Registry.get uid st = .error (a ++ uid ++ b)) := by
  refine ⟨?_, ?_, ?_⟩
  · intro llm h
    unfold Registry.get
    rw [h]
  · intro pm p llm hlk hpm huid hfind hload
    have hpuid : p.usage_id = some uid := by
      have := List.find?_some hfind
      simpa using this
    have hpmem : p ∈ pm.config.profiles := List.mem_of_find?_eq_some hfind
    have hg : uid ∈ get_id_usages pm.config := by
      unfold get_id_usages
      refine List.mem_filterMap.mpr ⟨p, hpmem, ?_⟩
      rw [hpuid]
      simp [huid]
    refine ⟨?_, lookupAssoc_insertAssoc_self st.usage_to_llm uid llm, ?_⟩
    · simp only [Registry.get, hlk, hpm, if_pos hg, hfind, hload]
    · simp only [Registry.get, lookupAssoc_insertAssoc_self st.usage_to_llm uid llm]
  · intro hlk hmiss
    refine ⟨"Usage ID ", " not found in registry. Use add() to register an LLM first.", ?_⟩
    cases hpm : st.profile_manager with
    | none => simp only [Registry.get, hlk, hpm, notFoundMsg]
    | some pm =>
        simp only [Registry.get, hlk, hpm, if_neg (hmiss pm hpm), notFoundMsg]

/-- Claim C9.  With a subscriber installed and a fresh usage id, `add`
delivers exactly the one event carrying the added instance, the in-memory
map already holds the instance in the state paired with that delivery, and
the result of `add` is the same whether or not the subscriber callback
raises: the callback exception is caught, never propagated. -/
theorem C9_add_event_isolation (st : RegistryState) (llm : LLM)
    (hsub : st.hasSubscriber = true)
    (hfresh : ¬ llm.usage_id ∈ list_usage_ids st) :
    ∃ st', (∀ subRaises, Registry.add subRaises llm st = .ok (st', [llm])) ∧
      lookupAssoc st'.usage_to_llm llm.usage_id = some llm := by
  refine ⟨{ st with usage_to_llm := insertAssoc st.usage_to_llm llm.usage_id llm },
    fun subRaises => ?_,
    lookupAssoc_insertAssoc_self st.usage_to_llm llm.usage_id llm⟩
  unfold Registry.add
  rw [if_neg hfresh]
  simp [notify, hsub]

/-- Witness for C9: adding a fresh instance to a subscribed registry
delivers one event, also when the callback raises. -/
theorem C9_witness :
    ∃ st', (∀ subRaises, Registry.add subRaises
        { model := "m", usage_id := "u" }
        { usage_to_llm := [], profile_manager := none, hasSubscriber := true }
        = .ok (st', [{ model := "m", usage_id := "u" }])) ∧
      lookupAssoc st'.usage_to_llm "u" = some { model := "m", usage_id := "u" } :=
  C9_add_event_isolation
    { usage_to_llm := [], profile_manager := none, hasSubscriber := true }
    { model := "m", usage_id := "u" } rfl (by decide)

/-- Metadata of the concrete disk-only profile p1 carrying usage id du. -/
def pmD : ProfileMetadata :=
  { name := "p1", file := "p1.json", description := "d", usage_id := some "du" }

/-- Index holding only `pmD`. -/
def diskCfg : ProfilesConfig :=
  { default_profile := none, profiles := [pmD] }

/-- Store over `diskCfg` with the document of p1 on disk. -/
def diskStore : ManagerState :=
  { config := diskCfg, diskConfig := diskCfg,
    docs := [("p1.json", { model := "md", usage_id := "du" })],
    defaultCache := none }

/-- Registry attached to `diskStore`, nothing materialized in memory. -/
def diskRegistry : RegistryState :=
  { usage_to_llm := [], profile_manager := some diskStore,
    hasSubscriber := false }

/-- Registry state after `get` promoted the disk profile p1 into memory. -/
def diskRegistryAfter : RegistryState :=
  { usage_to_llm := [("du", { model := "md", usage_id := "du" })],
    profile_manager := some diskStore, hasSubscriber := false }

/-- Witness for C6: resolving the never-materialized usage id du loads the
profile from the attached store, promotes it into the in-memory map, and a
second `get` resolves from the map with the state unchanged. -/
theorem C6_witness :
    Registry.get "du" diskRegistry
      = .ok ({ model := "md", usage_id := "du" }, diskRegistryAfter) ∧
    Registry.get "du" diskRegistryAfter
      = .ok ({ model := "md", usage_id := "du" }, diskRegistryAfter) := by
  obtain ⟨g1, g2, g3⟩ := (C6_get_resolution diskRegistry "du").2.1 diskStore pmD
    { model := "md", usage_id := "du" } rfl rfl (by decide) (by decide) rfl
  exact ⟨g1, g3⟩

/-- Claim C7.  The default-profile result is cached: a successful
`get_default_profile` leaves its result in the cache slot, and a repeated
call returns the identical result without reading disk, whatever the
document files then hold.  `set_default_profile` on a present name clears
the cache and installs the new binding, so the next `get_default_profile`
freshly loads the new default from disk. -/
theorem C7_default_profile_cache (st : ManagerState) :
    (∀ r st1, get_default_profile st = .ok (r, st1) →
      st1.defaultCache = some r ∧
      ∀ docs2, get_default_profile { st1 with docs := docs2 }
        = .ok (r, { st1 with docs := docs2 })) ∧
    (∀ n st', set_default_profile n st = .ok st' →
      st'.defaultCache = none ∧ st'.config.default_profile = some n ∧
      ∀ llm, load_profile st' n = .ok llm →
        get_default_profile st'
          = .ok (some llm, { st' with defaultCache := some (some llm) })) := by
  constructor
  · intro r st1 h
    have hc : st1.defaultCache = some r := by
      unfold get_default_profile at h
      split at h
      · cases h
        assumption
      · split at h
        · cases h
          rfl
        · split at h
          · cases h
            rfl
          · cases h
    refine ⟨hc, fun docs2 => ?_⟩
    unfold get_default_profile
    dsimp only
    rw [hc]
  · intro n st' h
    unfold set_default_profile at h
    by_cases hmem : n ∈ get_profile_names st
    · rw [if_neg (fun hc => hc hmem)] at h
      cases h
      refine ⟨rfl, rfl, ?_⟩
      intro llm hload
      unfold get_default_profile
      dsimp only
      rw [hload]
    · rw [if_pos hmem] at h
      cases h

/-- Index of the two-profile store with a set as the default. -/
def cfgDefaultA : ProfilesConfig :=
  { default_profile := some "a", profiles := [pmA, pmB] }

/-- State of the two-profile store after `set_default_profile` on a. -/
def storeDefaultA : ManagerState :=
  { config := cfgDefaultA, diskConfig := cfgDefaultA,
    docs := twoProfileStore.docs, defaultCache := none }

/-- Witness for C7: setting a as the default of the two-profile store
clears the cache, and the next `get_default_profile` freshly loads a. -/
theorem C7_witness :
    storeDefaultA.defaultCache = none ∧
    storeDefaultA.config.default_profile = some "a" ∧
    get_default_profile storeDefaultA
      = .ok (some { model := "ma", usage_id := "ua" },
        { storeDefaultA with
          defaultCache := some (some { model := "ma", usage_id := "ua" }) }) := by
  obtain ⟨h1, h2, h3⟩ :=
    (C7_default_profile_cache twoProfileStore).2 "a" storeDefaultA rfl
  exact ⟨h1, h2, h3 { model := "ma", usage_id := "ua" } rfl⟩

/-- Claim C8.  With a file value ending in `.json`, `ProfileMetadata`
construction succeeds exactly when the name matches the pattern and is not
reserved; every pattern-violating or reserved name fails, every file value
not ending in `.json` fails, and a successful construction stores the four
arguments unchanged. -/
theorem C8_metadata_validation (name file description : String)
    (uid : Option String) :
    (fileJsonOk file = true →
      ((∃ pm, ProfileMetadata.build name file description uid = .ok pm) ↔
        (namePatternOk name = true ∧ ¬ name ∈ invalidProfileNames))) ∧
    (fileJsonOk file = false →
      ∃ e, ProfileMetadata.build name file description uid = .error e) ∧
    ((namePatternOk name = false ∨ name ∈ invalidProfileNames) →
      ∃ e, ProfileMetadata.build name file description uid = .error e) ∧
    (∀ pm, ProfileMetadata.build name file description uid = .ok pm →
      pm = { name := name, file := file, description := description,
             usage_id := uid }) := by
  refine ⟨?_, ?_, ?_, ?_⟩
  · intro hf
    constructor
    · rintro ⟨pm, hpm⟩
      by_cases h1 : namePatternOk name
      · by_cases h2 : name ∈ invalidProfileNames
        · simp [ProfileMetadata.build, h1, hf, h2] at hpm
        · exact ⟨h1, h2⟩
      · have hb : namePatternOk name = false := by simpa using h1
        simp [ProfileMetadata.build, hb] at hpm
    · rintro ⟨h1, h2⟩
      exact ⟨{ name := name, file := file, description := description,
               usage_id := uid },
        by simp [ProfileMetadata.build, h1, h2, hf]⟩
  · intro hf
    by_cases h1 : namePatternOk name
    · exact ⟨"ValidationError: file does not match pattern",
        by simp [ProfileMetadata.build, h1, hf]⟩
    · have hb : namePatternOk name = false := by simpa using h1
      exact ⟨"ValidationError: name does not match pattern",
        by simp [ProfileMetadata.build, hb]⟩
  · rintro (h | h)
    · exact ⟨"ValidationError: name does not match pattern",
        by simp [ProfileMetadata.build, h]⟩
    · by_cases h1 : namePatternOk name
      · by_cases hf : fileJsonOk file
        · exact ⟨"ValidationError: Invalid profile name.",
            by simp [ProfileMetadata.build, h1, hf, h]⟩
        · have hfb : fileJsonOk file = false := by simpa using hf
          exact ⟨"ValidationError: file does not match pattern",
            by simp [ProfileMetadata.build, h1, hfb]⟩
      · have hb : namePatternOk name = false := by simpa using h1
        exact ⟨"ValidationError: name does not match pattern",
          by simp [ProfileMetadata.build, hb]⟩
  · intro pm hpm
    by_cases h1 : namePatternOk name
    · by_cases hf : fileJsonOk file
      · by_cases h2 : name ∈ invalidProfileNames
        · simp [ProfileMetadata.build, h1, hf, h2] at hpm
        · have hb : ProfileMetadata.build name file description uid
              = .ok { name := name, file := file,
                      description := description, usage_id := uid } := by
            simp [ProfileMetadata.build, h1, hf, h2]
          rw [hb] at hpm
          cases hpm
          rfl
      · have hfb : fileJsonOk file = false := by simpa using hf
        simp [ProfileMetadata.build, h1, hfb] at hpm
    · have hb : namePatternOk name = false := by simpa using h1
      simp [ProfileMetadata.build, hb] at hpm

/-- Witness for C8: a patterned name with a json file succeeds; the
reserved name config, a slash-bearing name, and a non-json file fail. -/
theorem C8_witness :
    (∃ pm, ProfileMetadata.build "my-profile.v2" "my-profile.v2.json" "d" none
      = .ok pm) ∧
    (∃ e, ProfileMetadata.build "config" "config.json" "d" none = .error e) ∧
    (∃ e, ProfileMetadata.build "bad/name" "bad.json" "d" none = .error e) ∧
    (∃ e, ProfileMetadata.build "ok" "notjson.txt" "d" none = .error e) :=
  ⟨((C8_metadata_validation "my-profile.v2" "my-profile.v2.json" "d" none).1
      (by decide)).mpr (by decide),
   (C8_metadata_validation "config" "config.json" "d" none).2.2.1
      (Or.inr (by decide)),
   (C8_metadata_validation "bad/name" "bad.json" "d" none).2.2.1
      (Or.inl (by decide)),
   (C8_metadata_validation "ok" "notjson.txt" "d" none).2.1 (by decide)⟩

/-- Claim C10.  When the in-memory map holds, after some exportable prefix,
an instance whose model string violates the profile-name pattern or is
reserved, `export_profiles` raises the `ValidationError` of `save_profile`
instead of completing, and every entry of the prefix has already been
written to the document directory of the target store and is not rolled
back. -/
theorem C10_export_partial_write (st : RegistryState) (tgt : ManagerState)
    (pre rest : List (String × LLM)) (uid : String) (llm : LLM)
    (hsplit : st.usage_to_llm = pre ++ (uid, llm) :: rest)
    (hpre : ∀ e ∈ pre, namePatternOk e.2.model = true
      ∧ ¬ e.2.model ∈ invalidProfileNames)
    (hbad : namePatternOk llm.model = false ∨ llm.model ∈ invalidProfileNames) :
    ∃ e, (export_profiles st tgt).2 = some e ∧
      ∀ f ∈ pre, (f.2.model ++ ".json")
        ∈ (export_profiles st tgt).1.docs.map Prod.fst := by
  obtain ⟨hnone, hdocs⟩ := exportGo_all_valid pre tgt hpre
  obtain ⟨err, herr⟩ :=
    save_profile_error_of_invalid llm.model uid llm (exportGo pre tgt).1 hbad
  refine ⟨err, ?_, ?_⟩
  · unfold export_profiles
    rw [hsplit, exportGo_append pre ((uid, llm) :: rest) tgt hnone]
    simp only [exportGo, herr]
  · intro f hf
    unfold export_profiles
    rw [hsplit, exportGo_append pre ((uid, llm) :: rest) tgt hnone]
    simp only [exportGo, herr]
    exact hdocs f hf

/-- An instance whose model is a valid profile name. -/
def goodLLM : LLM := { model := "good_model", usage_id := "u1" }

/-- An instance whose model contains a slash, not a valid profile name. -/
def badLLM : LLM := { model := "bad/model", usage_id := "u2" }

/-- A registry holding the good instance before the bad one. -/
def exportRegistry : RegistryState :=
  { usage_to_llm := [("u1", goodLLM), ("u2", badLLM)],
    profile_manager := none, hasSubscriber := false }

/-- Witness for C10: exporting a registry with a good instance followed by
a slash-named one raises, with the good document already written. -/
theorem C10_witness :
    ∃ e, (export_profiles exportRegistry emptyManager).2 = some e ∧
      ∀ f ∈ [("u1", goodLLM)], (f.2.model ++ ".json")
        ∈ (export_profiles exportRegistry emptyManager).1.docs.map Prod.fst :=
  C10_export_partial_write exportRegistry emptyManager [("u1", goodLLM)] []
    "u2" badLLM rfl (by decide) (Or.inl (by decide))
